import Mathlib

/-!
# DevConnector — shallow embedding and verification

A shallow embedding of the profile/account/post mutation workflow of the
DevConnector API (Express + MongoDB), together with proofs about the claims of
its specification.  Mongo documents are modelled as Lean structures, document
collections as lists, and each route handler as a pure function from the
store (plus request data) to the updated store and the JSON-ish result.
JavaScript truthiness on optional string fields, `Array.prototype.indexOf`
returning `-1`, and MongoDB `$set` replacing an entire subdocument key are all
modelled explicitly.
-/

namespace DevConnector

/-- Error outcomes surfaced by the route handlers, named after the spec's
taxonomy.  `Forbidden` is the 401 "User not authorized" response, `NotFound`
the 404/400 absent-entity responses, `AlreadyLiked`/`NotLiked` the 400
domain-conflict responses, and `ServerError` the generic 500 response produced
by a `catch` block. -/
inductive Err
  | NotFound
  | AlreadyLiked
  | NotLiked
  | Forbidden
  | ServerError
  | ValidationError
deriving DecidableEq, Repr

/-- One entry of a post's `likes` array: `{ user: <id> }`. -/
structure LikeEntry where
  user : Nat
deriving DecidableEq, Repr

/-- A post document: `{id, text, name, avatar, user, likes}` (comments and
date omitted: no claim mentions them). -/
structure Post where
  id : Nat
  text : String
  name : String
  avatar : String
  user : Nat
  likes : List LikeEntry
deriving DecidableEq, Repr

/-- An experience subdocument of a profile.  `fromDate`/`toDate` stand for the
JS fields `from`/`to` (`from` is a Lean keyword). -/
structure Experience where
  id : String
  company : String
  title : String
  location : Option String
  fromDate : String
  toDate : Option String
  current : Bool
  description : Option String
deriving DecidableEq, Repr

/-- An education subdocument of a profile. -/
structure Education where
  id : String
  school : String
  degree : String
  fieldofstudy : String
  fromDate : String
  toDate : Option String
  current : Bool
  description : Option String
deriving DecidableEq, Repr

/-- The `social` subdocument of a profile; each field is an optional URL. -/
structure Social where
  youtube : Option String
  twitter : Option String
  facebook : Option String
  linkedin : Option String
  instagram : Option String
deriving DecidableEq, Repr

/-- The empty social object `{}` built by the upsert handler before the
conditional assignments. -/
def Social.empty : Social :=
  { youtube := none, twitter := none, facebook := none, linkedin := none,
    instagram := none }

/-- A profile document.  `none` on an optional field means the key is absent
from the stored document. -/
structure Profile where
  user : Nat
  company : Option String
  website : Option String
  location : Option String
  bio : Option String
  status : Option String
  githubusername : Option String
  skills : Option (List String)
  social : Social
  experience : List Experience
  education : List Education
deriving DecidableEq, Repr

/-- A user (account) document. -/
structure User where
  id : Nat
  name : String
  email : String
  password : String
  avatar : String
deriving DecidableEq, Repr

/-- The document store: the three collections the routes touch. -/
structure DB where
  users : List User
  profiles : List Profile
  posts : List Post
deriving DecidableEq, Repr

/-- JavaScript truthiness of an optional string request field: `undefined`
and the empty string are falsy (`if (company) ...`). -/
def jsTruthy : Option String → Bool
  | none => false
  | some s => !(s == "")

/-- JavaScript `Array.prototype.indexOf`: index of the first occurrence, or
`-1` when absent. -/
def jsIndexOf [BEq α] (l : List α) (x : α) : Int :=
  match l.findIdx? (· == x) with
  | some i => (i : Int)
  | none => -1

/-- Update the first element satisfying `pred` (MongoDB single-document
writes: `findOneAndUpdate`, or `save` of a loaded document keyed by id). -/
def updateFirst (pred : α → Bool) (g : α → α) : List α → List α
  | [] => []
  | x :: xs => if pred x then g x :: xs else x :: updateFirst pred g xs

/-! ## PostStore operations (src/config/db.js, posts router) -/

/-- Model of `Post.findById(id)`: the first (the unique) document with that id. -/
def findPost (posts : List Post) (pid : Nat) : Option Post :=
  posts.find? (fun p => p.id == pid)

/-- Model of `post.save()`: write the loaded document back, keyed by its id. -/
def savePost (posts : List Post) (p2 : Post) : List Post :=
  updateFirst (fun p => p.id == p2.id) (fun _ => p2) posts

/-- Route `PUT api/posts/like/:id`: 404 if the post is absent; 400 "Post already
liked" if the caller already appears in `likes`; else unshift `{user}` onto
`likes`, save, and return the updated `likes`.  The handler returns the store
it leaves behind together with the response. -/
def like (posts : List Post) (userId pid : Nat) :
    List Post × Except Err (List LikeEntry) :=
  match findPost posts pid with
  | none => (posts, .error .NotFound)
  | some post =>
    if (post.likes.filter (fun l => l.user == userId)).length > 0 then
      (posts, .error .AlreadyLiked)
    else
      let post2 := { post with likes := { user := userId } :: post.likes }
      (savePost posts post2, .ok post2.likes)

/-- Route `PUT api/posts/unlike/:id`: 404 if the post is absent; compute the
`indexOf` of the caller among `likes[*].user`; if `≥ 0` splice that entry out,
save, and return the updated `likes`; else 400 "Post has not yet been
liked". -/
def unlike (posts : List Post) (userId pid : Nat) :
    List Post × Except Err (List LikeEntry) :=
  match findPost posts pid with
  | none => (posts, .error .NotFound)
  | some post =>
    let removeIndex := jsIndexOf (post.likes.map (fun l => l.user)) userId
    if removeIndex ≥ 0 then
      let post2 := { post with likes := post.likes.eraseIdx removeIndex.toNat }
      (savePost posts post2, .ok post2.likes)
    else
      (posts, .error .NotLiked)

/-- Route `DELETE api/posts/:id`: 404 if the post is absent; 401 "User not
authorized" if the post's owner differs from the caller; else `post.remove()`
(delete the document) and succeed. -/
def deleteById (posts : List Post) (userId pid : Nat) :
    List Post × Except Err Unit :=
  match findPost posts pid with
  | none => (posts, .error .NotFound)
  | some post =>
    if post.user ≠ userId then
      (posts, .error .Forbidden)
    else
      (posts.eraseP (fun p => p.id == pid), .ok ())

/-! ## ProfileStore operations (src/routes/api/auth.js, profile router) -/

/-- Model of `Profile.findOne({user})`: the first profile owned by that user. -/
def findProfile (profiles : List Profile) (u : Nat) : Option Profile :=
  profiles.find? (fun p => p.user == u)

/-- Model of `profile.save()`: write the loaded profile back.  The document is keyed
by its owner, which identifies it under the one-profile-per-owner
invariant. -/
def saveProfile (profiles : List Profile) (p2 : Profile) : List Profile :=
  updateFirst (fun p => p.user == p2.user) (fun _ => p2) profiles

/-- The request body of `POST api/profile`: every field the handler
destructures, `none` when the key is missing. -/
structure ProfileBody where
  company : Option String
  website : Option String
  location : Option String
  bio : Option String
  status : Option String
  githubusername : Option String
  skills : Option String
  youtube : Option String
  facebook : Option String
  twitter : Option String
  instagram : Option String
  linkedin : Option String
deriving DecidableEq, Repr

/-- JS `split(',')` on the underlying character sequence: groups between
commas, keeping empty groups, as in JavaScript. -/
def splitAtCommas : List Char → List (List Char)
  | [] => [[]]
  | c :: cs =>
    if c = ',' then [] :: splitAtCommas cs
    else match splitAtCommas cs with
      | [] => [[c]]
      | g :: gs => (c :: g) :: gs

/-- JS `trim()`: strip leading and trailing whitespace. -/
def trimChars (cs : List Char) : List Char :=
  ((cs.dropWhile Char.isWhitespace).reverse.dropWhile Char.isWhitespace).reverse

/-- JS `skills.split(',').map(skill => skill.trim())`. -/
def parseSkills (s : String) : List String :=
  (splitAtCommas s.data).map (fun cs => String.mk (trimChars cs))

/-- The `profileFields` object the upsert handler builds: `user` always,
each top-level key only when the request value is truthy, and a `social`
object that is always present (it starts as `{}`) holding only the truthy
social inputs. -/
structure ProfileFields where
  user : Nat
  company : Option String
  website : Option String
  location : Option String
  bio : Option String
  status : Option String
  githubusername : Option String
  skills : Option (List String)
  social : Social
deriving DecidableEq, Repr

/-- Lines 130–148 of the profile router: build `profileFields` from the
request body with truthiness guards; `none` means the key was not added. -/
def buildProfileFields (userId : Nat) (b : ProfileBody) : ProfileFields :=
  { user := userId
    company := if jsTruthy b.company then b.company else none
    website := if jsTruthy b.website then b.website else none
    location := if jsTruthy b.location then b.location else none
    bio := if jsTruthy b.bio then b.bio else none
    status := if jsTruthy b.status then b.status else none
    githubusername := if jsTruthy b.githubusername then b.githubusername else none
    skills := match b.skills with
      | some s => if !(s == "") then some (parseSkills s) else none
      | none => none
    social :=
      { youtube := if jsTruthy b.youtube then b.youtube else none
        twitter := if jsTruthy b.twitter then b.twitter else none
        facebook := if jsTruthy b.facebook then b.facebook else none
        linkedin := if jsTruthy b.linkedin then b.linkedin else none
        instagram := if jsTruthy b.instagram then b.instagram else none } }

/-- MongoDB `$set` with the keys of `profileFields` applied to a stored
profile: a key that is present replaces the stored value of that key; a key
that is absent leaves the stored value.  The `social` key is always present
in `profileFields`, and `$set` on `social` replaces the whole subdocument.
`experience` and `education` are not keys of `profileFields`, so they are
untouched. -/
def applySet (p : Profile) (f : ProfileFields) : Profile :=
  { user := f.user
    company := match f.company with | some c => some c | none => p.company
    website := match f.website with | some w => some w | none => p.website
    location := match f.location with | some l => some l | none => p.location
    bio := match f.bio with | some b => some b | none => p.bio
    status := match f.status with | some s => some s | none => p.status
    githubusername :=
      match f.githubusername with | some g => some g | none => p.githubusername
    skills := match f.skills with | some s => some s | none => p.skills
    social := f.social
    experience := p.experience
    education := p.education }

/-- Model of `new Profile(profileFields)`: a fresh document holding exactly the built
fields; the array fields default to empty. -/
def newProfile (f : ProfileFields) : Profile :=
  { user := f.user, company := f.company, website := f.website,
    location := f.location, bio := f.bio, status := f.status,
    githubusername := f.githubusername, skills := f.skills,
    social := f.social, experience := [], education := [] }

/-- Route `POST api/profile`: validate (`status` and `skills` must be non-empty),
build `profileFields`, then `findOneAndUpdate` with `$set` if a profile for
the caller exists, else create one.  Returns the store left behind and the
response (the resulting profile, or a validation error). -/
def upsert (profiles : List Profile) (userId : Nat) (b : ProfileBody) :
    List Profile × Except Err Profile :=
  if !(jsTruthy b.status) || !(jsTruthy b.skills) then
    (profiles, .error .ValidationError)
  else
    let f := buildProfileFields userId b
    match findProfile profiles userId with
    | some p =>
      let p2 := applySet p f
      (updateFirst (fun q => q.user == userId) (fun _ => p2) profiles, .ok p2)
    | none =>
      let p := newProfile f
      (profiles ++ [p], .ok p)

/-- The body of `PUT api/profile/experience` together with the subdocument id
Mongoose assigns on save. -/
def mkExperience (id : String) (company title : String)
    (location : Option String) (fromDate : String) (toDate : Option String)
    (current : Bool) (description : Option String) : Experience :=
  { id, company, title, location, fromDate, toDate, current, description }

/-- Route `PUT api/profile/experience`: load the caller's profile and unshift the
new entry onto `experience`, then save.  When no profile exists, the handler
dereferences `null` (`profile.experience`), the thrown TypeError is caught,
and the route answers 500 Server Error. -/
def addExperience (profiles : List Profile) (userId : Nat) (newExp : Experience) :
    List Profile × Except Err Profile :=
  match findProfile profiles userId with
  | none => (profiles, .error .ServerError)
  | some profile =>
    let p2 := { profile with experience := newExp :: profile.experience }
    (saveProfile profiles p2, .ok p2)

/-- Route `PUT api/profile/education`: same shape as `addExperience` on the
`education` array. -/
def addEducation (profiles : List Profile) (userId : Nat) (newEdu : Education) :
    List Profile × Except Err Profile :=
  match findProfile profiles userId with
  | none => (profiles, .error .ServerError)
  | some profile =>
    let p2 := { profile with education := newEdu :: profile.education }
    (saveProfile profiles p2, .ok p2)

/-- Route `DELETE api/profile/experience/:exp_id`: load the profile, take the
`indexOf` of the entry id; if `≥ 0` splice it out and save; either way answer
200 with the (possibly unmodified) profile.  A missing profile takes the same
caught-TypeError path as `addExperience`. -/
def removeExperience (profiles : List Profile) (userId : Nat) (expId : String) :
    List Profile × Except Err Profile :=
  match findProfile profiles userId with
  | none => (profiles, .error .ServerError)
  | some profile =>
    let removeIndex := jsIndexOf (profile.experience.map (fun e => e.id)) expId
    if removeIndex ≥ 0 then
      let p2 :=
        { profile with experience := profile.experience.eraseIdx removeIndex.toNat }
      (saveProfile profiles p2, .ok p2)
    else
      (profiles, .ok profile)

/-- Route `DELETE api/profile/education/:edu_id`: same shape as `removeExperience`
on the `education` array. -/
def removeEducation (profiles : List Profile) (userId : Nat) (eduId : String) :
    List Profile × Except Err Profile :=
  match findProfile profiles userId with
  | none => (profiles, .error .ServerError)
  | some profile =>
    let removeIndex := jsIndexOf (profile.education.map (fun e => e.id)) eduId
    if removeIndex ≥ 0 then
      let p2 :=
        { profile with education := profile.education.eraseIdx removeIndex.toNat }
      (saveProfile profiles p2, .ok p2)
    else
      (profiles, .ok profile)

/-! ## Account cascade delete (`DELETE api/profile`) -/

/-- Model of `Post.deleteMany({user})`: remove every post owned by the user. -/
def deleteManyPostsByUser (db : DB) (u : Nat) : DB :=
  { db with posts := db.posts.filter (fun p => p.user ≠ u) }

/-- Model of `Profile.findOneAndRemove({user})`: remove the first profile owned by the
user (the only one, under the one-profile-per-owner invariant). -/
def removeProfileByUser (db : DB) (u : Nat) : DB :=
  { db with profiles := db.profiles.eraseP (fun p => p.user == u) }

/-- Model of `User.findOneAndRemove({_id})`: remove the user record itself. -/
def removeUserById (db : DB) (u : Nat) : DB :=
  { db with users := db.users.eraseP (fun x => x.id == u) }

/-- Route `DELETE api/profile`: three awaited store calls in textual order — posts,
then profile, then user. -/
def deleteCascade (db : DB) (u : Nat) : DB :=
  removeUserById (removeProfileByUser (deleteManyPostsByUser db u) u) u

/-- The primitive store calls the cascade-delete handler awaits. -/
inductive StoreCall
  | deletePosts (u : Nat)
  | deleteProfile (u : Nat)
  | deleteUser (u : Nat)
deriving DecidableEq, Repr

/-- Execute one store call. -/
def applyCall (db : DB) : StoreCall → DB
  | .deletePosts u => deleteManyPostsByUser db u
  | .deleteProfile u => removeProfileByUser db u
  | .deleteUser u => removeUserById db u

/-- The sequence of store calls `DELETE api/profile` awaits, in textual
order: each call completes (is awaited) before the next starts. -/
def deleteCascadeTrace (u : Nat) : List StoreCall :=
  [.deletePosts u, .deleteProfile u, .deleteUser u]

/-! ## GithubProxy (`GET api/profile/github/:username`) -/

/-- The query-string parameters the handler puts in the upstream URI:
`per_page=5&sort=created:asc`. -/
structure GithubQuery where
  per_page : Nat
  sort : String
deriving DecidableEq, Repr

/-- The query as constructed on line 393 of the profile router. -/
def githubQuery : GithubQuery :=
  { per_page := 5, sort := "created:asc" }

/-- Modelled from the spec: the query §4.4 describes — "the 5
most-recently-created repositories", i.e. a creation-date sort with the most
recent first, written in the same `key:direction` form the handler uses —
for comparison with the constructed query. -/
def githubQuerySpec : GithubQuery :=
  { per_page := 5, sort := "created:desc" }

/-- What the upstream `request` call can deliver to the callback: a transport
error (then `response` is `undefined`), or a response with a status code and
a body. -/
inductive UpstreamOutcome
  | transportError
  | response (status : Nat) (body : String)
deriving DecidableEq, Repr

/-- How the github route ends: a JSON response with a status code, a crash
(an exception thrown inside the `request` callback, which the surrounding
`try`/`catch` cannot reach), or — used only by the spec model below — a
distinct upstream-error response. -/
inductive GithubResult
  | json (status : Nat) (body : String)
  | crash
  | upstreamError
deriving DecidableEq, Repr

/-- The `request` callback of the github route.  On a transport error it only
logs and falls through; `response` is then `undefined`, so reading
`response.statusCode` throws an uncaught TypeError — modelled as `crash`.
Otherwise a non-200 status answers 404 "No github profile found", and a 200
status relays the parsed body. -/
def listRepos (o : UpstreamOutcome) : GithubResult :=
  match o with
  | .transportError => .crash
  | .response status body =>
    if status ≠ 200 then .json 404 "No github profile found"
    else .json 200 body

/-- Modelled from the spec: `listRepos` as §4.4 describes it — "on transport
error, surfaces `UpstreamError`" — for comparison with the implementation. -/
def listReposSpec (o : UpstreamOutcome) : GithubResult :=
  match o with
  | .transportError => .upstreamError
  | .response status body =>
    if status ≠ 200 then .json 404 "No github profile found"
    else .json 200 body

/-! ## Helper lemmas -/

/-- Unfolding `findIdx?` on a cons without the start accumulator. -/
theorem findIdx?_cons_eq (p : α → Bool) (x : α) (xs : List α) :
    (x :: xs).findIdx? p = if p x then some 0 else (xs.findIdx? p).map (· + 1) := by
  rw [List.findIdx?_cons, List.findIdx?_succ]

/-- Erasing at the index `findIdx?` found removes the first match. -/
theorem eraseIdx_of_findIdx? (p : α → Bool) :
    ∀ (l : List α) (i : Nat), l.findIdx? p = some i → l.eraseIdx i = l.eraseP p := by
  intro l
  induction l with
  | nil => intro i h; simp [List.findIdx?_nil] at h
  | cons x xs ih =>
    intro i h
    rw [findIdx?_cons_eq] at h
    by_cases hx : p x
    · simp [hx] at h
      subst h
      simp [List.eraseIdx_cons_zero, List.eraseP_cons, hx]
    · simp [hx] at h
      obtain ⟨j, hj, rfl⟩ := h
      simp [List.eraseIdx_cons_succ, List.eraseP_cons, hx, ih j hj]

/-- A `== x` search via `findIdx?` finds nothing exactly on
non-members. -/
theorem findIdx?_beq_eq_none_iff [BEq α] [LawfulBEq α] (l : List α) (x : α) :
    l.findIdx? (· == x) = none ↔ x ∉ l := by
  rw [List.findIdx?_eq_none_iff]
  constructor
  · intro h hmem
    have := h x hmem
    simp at this
  · intro h a ha
    rw [beq_eq_false_iff_ne]
    rintro rfl
    exact h ha

/-- Reading `jsIndexOf` off a `findIdx?` result of `none`. -/
theorem jsIndexOf_of_none [BEq α] {l : List α} {x : α}
    (h : l.findIdx? (· == x) = none) : jsIndexOf l x = -1 := by
  simp [jsIndexOf, h]

/-- Reading `jsIndexOf` off a `findIdx?` result of `some i`. -/
theorem jsIndexOf_of_some [BEq α] {l : List α} {x : α} {i : Nat}
    (h : l.findIdx? (· == x) = some i) : jsIndexOf l x = i := by
  simp [jsIndexOf, h]

/-- An element of a single-document update is an old element or the updated
document. -/
theorem mem_updateFirst {pred : α → Bool} {g : α → α} :
    ∀ {l : List α} {y : α}, y ∈ updateFirst pred g l → y ∈ l ∨ ∃ x ∈ l, y = g x := by
  intro l
  induction l with
  | nil => intro y hy; simp [updateFirst] at hy
  | cons a as ih =>
    intro y hy
    by_cases h : pred a
    · simp [updateFirst, h] at hy
      rcases hy with rfl | hy
      · exact .inr ⟨a, by simp, rfl⟩
      · exact .inl (by simp [hy])
    · simp [updateFirst, h] at hy
      rcases hy with rfl | hy
      · exact .inl (by simp)
      · rcases ih hy with h1 | ⟨x, hx, rfl⟩
        · exact .inl (by simp [h1])
        · exact .inr ⟨x, by simp [hx], rfl⟩

/-- Erasing the first match from a list with at most one match leaves no
match. -/
theorem countP_eraseP_eq_zero (p : α → Bool) :
    ∀ l : List α, l.countP p ≤ 1 → (l.eraseP p).countP p = 0 := by
  intro l
  induction l with
  | nil => intro _; simp
  | cons a as ih =>
    intro h
    rw [List.countP_cons] at h
    by_cases ha : p a
    · have h0 : as.countP p = 0 := by rw [if_pos ha] at h; omega
      simp [List.eraseP_cons, ha, h0]
    · have h1 : as.countP p ≤ 1 := by rw [if_neg ha] at h; omega
      simp [List.eraseP_cons, ha, List.countP_cons, ih h1]

/-- The handler's already-liked test (`filter(...).length > 0`) is exactly
membership of the caller among the likes' user ids. -/
theorem filter_user_length_pos_iff (likes : List LikeEntry) (u : Nat) :
    0 < (likes.filter (fun l => l.user == u)).length ↔
      u ∈ likes.map (fun l => l.user) := by
  induction likes with
  | nil => simp
  | cons a as ih =>
    by_cases h : a.user = u
    · simp [List.filter_cons, beq_iff_eq, h]
    · simp [List.filter_cons, beq_iff_eq, h, Ne.symm h, ih]

/-- With no-duplicate ids, erasing the document with a given id leaves no
document with that id findable. -/
theorem findPost_eraseP (pid : Nat) :
    ∀ posts : List Post, (posts.map (fun p => p.id)).Nodup →
      findPost (posts.eraseP (fun p => p.id == pid)) pid = none := by
  intro posts
  induction posts with
  | nil => intro _; simp [findPost]
  | cons q qs ih =>
    intro h
    rw [List.map_cons, List.nodup_cons] at h
    obtain ⟨hq, hqs⟩ := h
    by_cases hqe : q.id = pid
    · subst hqe
      simp [List.eraseP_cons, findPost]
      intro x hx hxe
      exact hq (by rw [← hxe]; exact List.mem_map_of_mem _ hx)
    · have hqb : (q.id == pid) = false := beq_eq_false_iff_ne.mpr hqe
      simp [List.eraseP_cons, hqb, findPost, List.find?_cons]
      simpa using List.find?_eq_none.mp (ih hqs)

/-- The already-liked branch of `like`. -/
theorem like_eq_of_mem {posts : List Post} {u pid : Nat} {post : Post}
    (hfind : findPost posts pid = some post)
    (hmem : u ∈ post.likes.map (fun l => l.user)) :
    like posts u pid = (posts, .error .AlreadyLiked) := by
  have hpos := (filter_user_length_pos_iff post.likes u).mpr hmem
  simp [like, hfind, hpos]

/-- The success branch of `like`. -/
theorem like_eq_of_not_mem {posts : List Post} {u pid : Nat} {post : Post}
    (hfind : findPost posts pid = some post)
    (hmem : u ∉ post.likes.map (fun l => l.user)) :
    like posts u pid =
      (savePost posts { post with likes := { user := u } :: post.likes },
       .ok ({ user := u } :: post.likes)) := by
  have hz : ¬ 0 < (post.likes.filter (fun l => l.user == u)).length :=
    fun h => hmem ((filter_user_length_pos_iff post.likes u).mp h)
  simp [like, hfind, hz]

/-- The not-liked branch of `unlike`. -/
theorem unlike_eq_of_not_mem {posts : List Post} {u pid : Nat} {post : Post}
    (hfind : findPost posts pid = some post)
    (hmem : u ∉ post.likes.map (fun l => l.user)) :
    unlike posts u pid = (posts, .error .NotLiked) := by
  have hnone : (post.likes.map (fun l => l.user)).findIdx? (· == u) = none :=
    (findIdx?_beq_eq_none_iff _ _).mpr hmem
  have hneg := jsIndexOf_of_none hnone
  simp [unlike, hfind, hneg]

/-- The success branch of `unlike`: the first matching entry is spliced
out. -/
theorem unlike_eq_of_mem {posts : List Post} {u pid : Nat} {post : Post}
    (hfind : findPost posts pid = some post)
    (hmem : u ∈ post.likes.map (fun l => l.user)) :
    unlike posts u pid =
      (savePost posts
          { post with likes := post.likes.eraseP (fun l => l.user == u) },
       .ok (post.likes.eraseP (fun l => l.user == u))) := by
  cases hidx : (post.likes.map (fun l => l.user)).findIdx? (· == u) with
  | none => exact absurd hmem ((findIdx?_beq_eq_none_iff _ _).mp hidx)
  | some i =>
    have hjs := jsIndexOf_of_some hidx
    have hi : post.likes.findIdx? (fun l => l.user == u) = some i := by
      rw [List.findIdx?_map] at hidx
      exact hidx
    have herase := eraseIdx_of_findIdx? (fun l => l.user == u) post.likes i hi
    simp [unlike, hfind, hjs, Int.toNat_natCast, Int.natCast_nonneg, herase]

/-! ## Claim theorems -/

/-- C5: when the post exists and the caller already appears in its `likes`,
`like` fails with `AlreadyLiked` and leaves the store (hence the likes
sequence) unchanged; when the caller is absent, `{user}` is prepended to
`likes`, the post is persisted, and the updated `likes` are returned. -/
theorem like_cases (posts : List Post) (u pid : Nat) (post : Post)
    (hfind : findPost posts pid = some post) :
    (u ∈ post.likes.map (fun l => l.user) →
        like posts u pid = (posts, .error .AlreadyLiked)) ∧
    (u ∉ post.likes.map (fun l => l.user) →
        like posts u pid =
          (savePost posts { post with likes := { user := u } :: post.likes },
           .ok ({ user := u } :: post.likes))) :=
  ⟨fun hmem => like_eq_of_mem hfind hmem,
   fun hmem => like_eq_of_not_mem hfind hmem⟩

/-- Witness for C5: liking an already-liked post is rejected with the store
unchanged, and liking a fresh post prepends the caller. -/
theorem like_cases_witness :
    like [⟨1, "hi", "Ann", "av", 7, [⟨2⟩, ⟨3⟩]⟩] 2 1 =
        ([⟨1, "hi", "Ann", "av", 7, [⟨2⟩, ⟨3⟩]⟩], .error .AlreadyLiked) ∧
    like [⟨1, "hi", "Ann", "av", 7, [⟨2⟩, ⟨3⟩]⟩] 4 1 =
        ([⟨1, "hi", "Ann", "av", 7, [⟨4⟩, ⟨2⟩, ⟨3⟩]⟩], .ok [⟨4⟩, ⟨2⟩, ⟨3⟩]) :=
  ⟨(like_cases [⟨1, "hi", "Ann", "av", 7, [⟨2⟩, ⟨3⟩]⟩] 2 1
      ⟨1, "hi", "Ann", "av", 7, [⟨2⟩, ⟨3⟩]⟩ (by decide)).1 (by decide),
   (like_cases [⟨1, "hi", "Ann", "av", 7, [⟨2⟩, ⟨3⟩]⟩] 4 1
      ⟨1, "hi", "Ann", "av", 7, [⟨2⟩, ⟨3⟩]⟩ (by decide)).2 (by decide)⟩

/-- C6: when the post exists and the caller is absent from its `likes`,
`unlike` fails with `NotLiked` and leaves the store unchanged; when present,
the first matching entry is removed, the post persisted, and the updated
`likes` returned. -/
theorem unlike_cases (posts : List Post) (u pid : Nat) (post : Post)
    (hfind : findPost posts pid = some post) :
    (u ∉ post.likes.map (fun l => l.user) →
        unlike posts u pid = (posts, .error .NotLiked)) ∧
    (u ∈ post.likes.map (fun l => l.user) →
        unlike posts u pid =
          (savePost posts
              { post with likes := post.likes.eraseP (fun l => l.user == u) },
           .ok (post.likes.eraseP (fun l => l.user == u)))) :=
  ⟨fun hmem => unlike_eq_of_not_mem hfind hmem,
   fun hmem => unlike_eq_of_mem hfind hmem⟩

/-- Witness for C6: unliking a not-liked post is rejected with the store
unchanged, and unliking a liked post removes exactly the caller's entry. -/
theorem unlike_cases_witness :
    unlike [⟨1, "hi", "Ann", "av", 7, [⟨2⟩, ⟨3⟩]⟩] 4 1 =
        ([⟨1, "hi", "Ann", "av", 7, [⟨2⟩, ⟨3⟩]⟩], .error .NotLiked) ∧
    unlike [⟨1, "hi", "Ann", "av", 7, [⟨2⟩, ⟨3⟩]⟩] 2 1 =
        ([⟨1, "hi", "Ann", "av", 7, [⟨3⟩]⟩], .ok [⟨3⟩]) :=
  ⟨(unlike_cases [⟨1, "hi", "Ann", "av", 7, [⟨2⟩, ⟨3⟩]⟩] 4 1
      ⟨1, "hi", "Ann", "av", 7, [⟨2⟩, ⟨3⟩]⟩ (by decide)).1 (by decide),
   (unlike_cases [⟨1, "hi", "Ann", "av", 7, [⟨2⟩, ⟨3⟩]⟩] 2 1
      ⟨1, "hi", "Ann", "av", 7, [⟨2⟩, ⟨3⟩]⟩ (by decide)).2 (by decide)⟩

/-- C7: the operation `deleteById` answers `NotFound` on an absent post; `Forbidden` on a
non-owned post, leaving the store unchanged (the post is still findable); and
deletes the post and succeeds only for the owner (with unique post ids, the
post is then no longer findable). -/
theorem deleteById_cases (posts : List Post) (u pid : Nat)
    (hids : (posts.map (fun p => p.id)).Nodup) :
    (findPost posts pid = none → deleteById posts u pid = (posts, .error .NotFound)) ∧
    (∀ post, findPost posts pid = some post → post.user ≠ u →
        deleteById posts u pid = (posts, .error .Forbidden) ∧
        findPost (deleteById posts u pid).1 pid = some post) ∧
    (∀ post, findPost posts pid = some post → post.user = u →
        deleteById posts u pid =
          (posts.eraseP (fun p => p.id == pid), .ok ()) ∧
        findPost (deleteById posts u pid).1 pid = none) := by
  refine ⟨fun hnone => by simp [deleteById, hnone], ?_, ?_⟩
  · intro post hfind hne
    have h1 : deleteById posts u pid = (posts, .error .Forbidden) := by
      simp [deleteById, hfind, hne]
    exact ⟨h1, by rw [h1]; exact hfind⟩
  · intro post hfind heq
    have h1 : deleteById posts u pid =
        (posts.eraseP (fun p => p.id == pid), .ok ()) := by
      simp [deleteById, hfind, heq]
    exact ⟨h1, by rw [h1]; exact findPost_eraseP pid posts hids⟩

/-- Witness for C7: concrete runs of all three branches. -/
theorem deleteById_cases_witness :
    deleteById [⟨1, "hi", "Ann", "av", 7, []⟩] 7 2 =
        ([⟨1, "hi", "Ann", "av", 7, []⟩], .error .NotFound) ∧
    deleteById [⟨1, "hi", "Ann", "av", 7, []⟩] 8 1 =
        ([⟨1, "hi", "Ann", "av", 7, []⟩], .error .Forbidden) ∧
    deleteById [⟨1, "hi", "Ann", "av", 7, []⟩] 7 1 = ([], .ok ()) :=
  ⟨(deleteById_cases [⟨1, "hi", "Ann", "av", 7, []⟩] 7 2 (by decide)).1 (by decide),
   ((deleteById_cases [⟨1, "hi", "Ann", "av", 7, []⟩] 8 1 (by decide)).2.1
      ⟨1, "hi", "Ann", "av", 7, []⟩ (by decide) (by decide)).1,
   ((deleteById_cases [⟨1, "hi", "Ann", "av", 7, []⟩] 7 1 (by decide)).2.2
      ⟨1, "hi", "Ann", "av", 7, []⟩ (by decide) (by decide)).1⟩

/-- C9: a user id appears at most once in a post's `likes`, and every
successful `like` or `unlike` preserves this: if every post in the store has
duplicate-free like-user ids, so does every post after the operation
succeeds. -/
theorem likes_nodup_preserved (posts posts' : List Post) (u pid : Nat)
    (r : List LikeEntry)
    (hinv : ∀ p ∈ posts, (p.likes.map (fun l => l.user)).Nodup) :
    (like posts u pid = (posts', .ok r) →
        ∀ p ∈ posts', (p.likes.map (fun l => l.user)).Nodup) ∧
    (unlike posts u pid = (posts', .ok r) →
        ∀ p ∈ posts', (p.likes.map (fun l => l.user)).Nodup) := by
  constructor
  · intro h p hp
    cases hfind : findPost posts pid with
    | none => simp [like, hfind] at h
    | some post =>
      have hpostmem : post ∈ posts := List.mem_of_find?_eq_some hfind
      by_cases hmem : u ∈ post.likes.map (fun l => l.user)
      · have := like_eq_of_mem hfind hmem
        rw [this] at h
        simp at h
      · have := like_eq_of_not_mem hfind hmem
        rw [this] at h
        obtain ⟨h1, _⟩ := Prod.mk.injEq .. ▸ h
        subst h1
        rcases mem_updateFirst hp with hold | ⟨x, _, rfl⟩
        · exact hinv p hold
        · rw [List.map_cons, List.nodup_cons]
          exact ⟨hmem, hinv post hpostmem⟩
  · intro h p hp
    cases hfind : findPost posts pid with
    | none => simp [unlike, hfind] at h
    | some post =>
      have hpostmem : post ∈ posts := List.mem_of_find?_eq_some hfind
      by_cases hmem : u ∈ post.likes.map (fun l => l.user)
      · have := unlike_eq_of_mem hfind hmem
        rw [this] at h
        obtain ⟨h1, _⟩ := Prod.mk.injEq .. ▸ h
        subst h1
        rcases mem_updateFirst hp with hold | ⟨x, _, rfl⟩
        · exact hinv p hold
        · exact (hinv post hpostmem).sublist
            ((List.eraseP_sublist post.likes).map (fun l => l.user))
      · have := unlike_eq_of_not_mem hfind hmem
        rw [this] at h
        simp at h

/-- Witness for C9: a successful like run keeps the updated post's like-user
ids duplicate-free. -/
theorem likes_nodup_preserved_witness :
    ((Post.likes ⟨1, "hi", "Ann", "av", 7, [⟨4⟩, ⟨2⟩]⟩).map
        (fun l => l.user)).Nodup :=
  (likes_nodup_preserved [⟨1, "hi", "Ann", "av", 7, [⟨2⟩]⟩]
      [⟨1, "hi", "Ann", "av", 7, [⟨4⟩, ⟨2⟩]⟩] 4 1 [⟨4⟩, ⟨2⟩]
      (by decide)).1 (by rfl)
      ⟨1, "hi", "Ann", "av", 7, [⟨4⟩, ⟨2⟩]⟩ (by decide)

/-- Deleting every post of an owner leaves no post of that owner. -/
theorem countP_filter_ne (posts : List Post) (u : Nat) :
    (posts.filter (fun p => p.user ≠ u)).countP (fun p => p.user == u) = 0 := by
  rw [List.countP_eq_zero]
  intro p hp
  have h2 : p.user ≠ u := by simpa using (List.mem_filter.mp hp).2
  simpa using h2

/-- C1: the cascade delete runs exactly the trace posts → profile → user,
each call completing before the next starts; the owner's posts are already
gone in the state the profile delete starts from, profile and user are still
untouched there, the profile is gone (and posts still gone) in the state the
user delete starts from, and the final state holds no post, profile, or user
record for the account. -/
theorem deleteCascade_order (db : DB) (u : Nat)
    (hp : db.profiles.countP (fun p => p.user == u) ≤ 1)
    (hu : db.users.countP (fun x => x.id == u) ≤ 1) :
    deleteCascade db u = (deleteCascadeTrace u).foldl applyCall db ∧
    deleteCascadeTrace u = [.deletePosts u, .deleteProfile u, .deleteUser u] ∧
    (applyCall db (.deletePosts u)).posts.countP (fun p => p.user == u) = 0 ∧
    (applyCall db (.deletePosts u)).profiles = db.profiles ∧
    (applyCall db (.deletePosts u)).users = db.users ∧
    (applyCall (applyCall db (.deletePosts u)) (.deleteProfile u)).profiles.countP
        (fun p => p.user == u) = 0 ∧
    (applyCall (applyCall db (.deletePosts u)) (.deleteProfile u)).posts
        = (applyCall db (.deletePosts u)).posts ∧
    (applyCall (applyCall db (.deletePosts u)) (.deleteProfile u)).users
        = db.users ∧
    (deleteCascade db u).posts.countP (fun p => p.user == u) = 0 ∧
    (deleteCascade db u).profiles.countP (fun p => p.user == u) = 0 ∧
    (deleteCascade db u).users.countP (fun x => x.id == u) = 0 := by
  refine ⟨rfl, rfl, ?_, rfl, rfl, ?_, rfl, rfl, ?_, ?_, ?_⟩
  · exact countP_filter_ne db.posts u
  · exact countP_eraseP_eq_zero _ db.profiles hp
  · exact countP_filter_ne db.posts u
  · exact countP_eraseP_eq_zero _ db.profiles hp
  · exact countP_eraseP_eq_zero _ db.users hu

/-- Witness for C1: a concrete account delete ends with no post, profile, or
user record for the account. -/
theorem deleteCascade_order_witness :
    (deleteCascade
        ⟨[⟨7, "Ann", "a@x", "pw", "av"⟩],
         [⟨7, none, none, none, none, some "dev", none, some ["js"],
           ⟨none, none, none, none, none⟩, [], []⟩],
         [⟨1, "t", "Ann", "av", 7, []⟩, ⟨2, "s", "Bob", "bv", 8, []⟩]⟩
        7).users.countP (fun x => x.id == 7) = 0 :=
  (deleteCascade_order
      ⟨[⟨7, "Ann", "a@x", "pw", "av"⟩],
       [⟨7, none, none, none, none, some "dev", none, some ["js"],
         ⟨none, none, none, none, none⟩, [], []⟩],
       [⟨1, "t", "Ann", "av", 7, []⟩, ⟨2, "s", "Bob", "bv", 8, []⟩]⟩
      7 (by decide) (by decide)).2.2.2.2.2.2.2.2.2.2

/-- C3 counterexample: with no profile for the caller, `addExperience` does
not fail with `NotFound` — the null-profile dereference is caught and the
route answers 500 Server Error. -/
theorem addExperience_no_profile_counterexample :
    (addExperience [] 5 ⟨"e1", "ACME", "Dev", none, "2020", none, false, none⟩).2
        = .error .ServerError ∧
    (addExperience [] 5 ⟨"e1", "ACME", "Dev", none, "2020", none, false, none⟩).2
        ≠ .error .NotFound := by
  refine ⟨rfl, fun h => ?_⟩
  exact Err.noConfusion (Except.error.inj h)

/-- C3 (amended): calls to `addExperience`/`addEducation` by a user with no profile
fail with a 500 Server Error (the handler dereferences the missing profile
and the thrown error is caught by the generic handler), leaving the store
unchanged; with a profile, the new entry is prepended at position 0 and the
profile persisted. -/
theorem addEntry_cases (profiles : List Profile) (u : Nat)
    (e : Experience) (d : Education) :
    (findProfile profiles u = none →
        addExperience profiles u e = (profiles, .error .ServerError) ∧
        addEducation profiles u d = (profiles, .error .ServerError)) ∧
    (∀ p, findProfile profiles u = some p →
        addExperience profiles u e =
          (saveProfile profiles { p with experience := e :: p.experience },
           .ok { p with experience := e :: p.experience }) ∧
        addEducation profiles u d =
          (saveProfile profiles { p with education := d :: p.education },
           .ok { p with education := d :: p.education })) := by
  constructor
  · intro h
    exact ⟨by simp [addExperience, h], by simp [addEducation, h]⟩
  · intro p h
    exact ⟨by simp [addExperience, h], by simp [addEducation, h]⟩

/-- Witness for C3: a concrete profile receives the new entry at the head of
its experience list, and the missing-profile case surfaces the server
error. -/
theorem addEntry_cases_witness :
    addExperience
        [⟨7, none, none, none, none, some "dev", none, some ["js"],
          ⟨none, none, none, none, none⟩,
          [⟨"e0", "Old", "Ops", none, "2018", none, false, none⟩], []⟩] 7
        ⟨"e1", "ACME", "Dev", none, "2020", none, false, none⟩ =
      ([⟨7, none, none, none, none, some "dev", none, some ["js"],
         ⟨none, none, none, none, none⟩,
         [⟨"e1", "ACME", "Dev", none, "2020", none, false, none⟩,
          ⟨"e0", "Old", "Ops", none, "2018", none, false, none⟩], []⟩],
       .ok ⟨7, none, none, none, none, some "dev", none, some ["js"],
            ⟨none, none, none, none, none⟩,
            [⟨"e1", "ACME", "Dev", none, "2020", none, false, none⟩,
             ⟨"e0", "Old", "Ops", none, "2018", none, false, none⟩], []⟩) ∧
    addExperience [] 5 ⟨"e1", "ACME", "Dev", none, "2020", none, false, none⟩
        = ([], .error .ServerError) :=
  ⟨((addEntry_cases
      [⟨7, none, none, none, none, some "dev", none, some ["js"],
        ⟨none, none, none, none, none⟩,
        [⟨"e0", "Old", "Ops", none, "2018", none, false, none⟩], []⟩] 7
      ⟨"e1", "ACME", "Dev", none, "2020", none, false, none⟩
      ⟨"d1", "MIT", "BS", "CS", "2010", none, false, none⟩).2
      ⟨7, none, none, none, none, some "dev", none, some ["js"],
       ⟨none, none, none, none, none⟩,
       [⟨"e0", "Old", "Ops", none, "2018", none, false, none⟩], []⟩ (by decide)).1,
   ((addEntry_cases [] 5
      ⟨"e1", "ACME", "Dev", none, "2020", none, false, none⟩
      ⟨"d1", "MIT", "BS", "CS", "2010", none, false, none⟩).1 (by decide)).1⟩

/-- C8: with a profile present, removing an experience or education entry
whose id does not occur silently no-ops — the store is unchanged and the
unmodified profile is returned — while removing an existing entry erases the
first entry with that id and persists the profile. -/
theorem removeEntry_cases (profiles : List Profile) (u : Nat) (p : Profile)
    (expId eduId : String) (hfind : findProfile profiles u = some p) :
    (expId ∉ p.experience.map (fun e => e.id) →
        removeExperience profiles u expId = (profiles, .ok p)) ∧
    (expId ∈ p.experience.map (fun e => e.id) →
        removeExperience profiles u expId =
          (saveProfile profiles
             { p with experience := p.experience.eraseP (fun e => e.id == expId) },
           .ok { p with
                 experience := p.experience.eraseP (fun e => e.id == expId) })) ∧
    (eduId ∉ p.education.map (fun e => e.id) →
        removeEducation profiles u eduId = (profiles, .ok p)) ∧
    (eduId ∈ p.education.map (fun e => e.id) →
        removeEducation profiles u eduId =
          (saveProfile profiles
             { p with education := p.education.eraseP (fun e => e.id == eduId) },
           .ok { p with
                 education := p.education.eraseP (fun e => e.id == eduId) })) := by
  refine ⟨fun hmem => ?_, fun hmem => ?_, fun hmem => ?_, fun hmem => ?_⟩
  · have hneg := jsIndexOf_of_none ((findIdx?_beq_eq_none_iff _ _).mpr hmem)
    simp [removeExperience, hfind, hneg]
  · cases hidx : (p.experience.map (fun e => e.id)).findIdx? (· == expId) with
    | none => exact absurd hmem ((findIdx?_beq_eq_none_iff _ _).mp hidx)
    | some i =>
      have hjs := jsIndexOf_of_some hidx
      have hi : p.experience.findIdx? (fun e => e.id == expId) = some i := by
        rw [List.findIdx?_map] at hidx
        exact hidx
      have herase := eraseIdx_of_findIdx? (fun e => e.id == expId) p.experience i hi
      simp [removeExperience, hfind, hjs, Int.toNat_natCast, Int.natCast_nonneg,
        herase]
  · have hneg := jsIndexOf_of_none ((findIdx?_beq_eq_none_iff _ _).mpr hmem)
    simp [removeEducation, hfind, hneg]
  · cases hidx : (p.education.map (fun e => e.id)).findIdx? (· == eduId) with
    | none => exact absurd hmem ((findIdx?_beq_eq_none_iff _ _).mp hidx)
    | some i =>
      have hjs := jsIndexOf_of_some hidx
      have hi : p.education.findIdx? (fun e => e.id == eduId) = some i := by
        rw [List.findIdx?_map] at hidx
        exact hidx
      have herase := eraseIdx_of_findIdx? (fun e => e.id == eduId) p.education i hi
      simp [removeEducation, hfind, hjs, Int.toNat_natCast, Int.natCast_nonneg,
        herase]

/-- Witness for C8: removing an absent entry id returns the unmodified
profile with the store untouched; removing a present id erases it. -/
theorem removeEntry_cases_witness :
    removeExperience
        [⟨7, none, none, none, none, some "dev", none, some ["js"],
          ⟨none, none, none, none, none⟩,
          [⟨"e0", "Old", "Ops", none, "2018", none, false, none⟩], []⟩] 7 "zz" =
      ([⟨7, none, none, none, none, some "dev", none, some ["js"],
         ⟨none, none, none, none, none⟩,
         [⟨"e0", "Old", "Ops", none, "2018", none, false, none⟩], []⟩],
       .ok ⟨7, none, none, none, none, some "dev", none, some ["js"],
            ⟨none, none, none, none, none⟩,
            [⟨"e0", "Old", "Ops", none, "2018", none, false, none⟩], []⟩) ∧
    removeExperience
        [⟨7, none, none, none, none, some "dev", none, some ["js"],
          ⟨none, none, none, none, none⟩,
          [⟨"e0", "Old", "Ops", none, "2018", none, false, none⟩], []⟩] 7 "e0" =
      ([⟨7, none, none, none, none, some "dev", none, some ["js"],
         ⟨none, none, none, none, none⟩, [], []⟩],
       .ok ⟨7, none, none, none, none, some "dev", none, some ["js"],
            ⟨none, none, none, none, none⟩, [], []⟩) :=
  ⟨(removeEntry_cases
      [⟨7, none, none, none, none, some "dev", none, some ["js"],
        ⟨none, none, none, none, none⟩,
        [⟨"e0", "Old", "Ops", none, "2018", none, false, none⟩], []⟩] 7
      ⟨7, none, none, none, none, some "dev", none, some ["js"],
       ⟨none, none, none, none, none⟩,
       [⟨"e0", "Old", "Ops", none, "2018", none, false, none⟩], []⟩
      "zz" "zz" (by decide)).1 (by decide),
   ((removeEntry_cases
      [⟨7, none, none, none, none, some "dev", none, some ["js"],
        ⟨none, none, none, none, none⟩,
        [⟨"e0", "Old", "Ops", none, "2018", none, false, none⟩], []⟩] 7
      ⟨7, none, none, none, none, some "dev", none, some ["js"],
       ⟨none, none, none, none, none⟩,
       [⟨"e0", "Old", "Ops", none, "2018", none, false, none⟩], []⟩
      "e0" "e0" (by decide)).2.1 (by decide))⟩

/-- Applying `$set` for one conditionally-added key: a truthy request value
overwrites the stored value, a falsy one leaves the key out of
`profileFields` and hence the stored value in place. -/
theorem setOpt_eq (v stored : Option String) :
    (match (if jsTruthy v then v else none) with
      | some c => some c
      | none => stored) = if jsTruthy v then v else stored := by
  cases v with
  | none => simp [jsTruthy]
  | some s => by_cases h : s = "" <;> simp [jsTruthy, h]

/-- C2 counterexample: a stored profile has `social.youtube = "yt"`; an
upsert request that supplies `twitter` but omits `youtube` wipes the stored
`youtube` instead of retaining it — the social fields do not merge
individually. -/
theorem upsert_social_counterexample :
    (upsert
        [⟨1, none, none, none, none, some "dev", none, some ["js"],
          ⟨some "yt", none, none, none, none⟩, [], []⟩] 1
        ⟨none, none, none, none, some "dev", none, some "js",
         none, none, some "tw", none, none⟩).2 =
      .ok ⟨1, none, none, none, none, some "dev", none, some ["js"],
           ⟨none, some "tw", none, none, none⟩, [], []⟩ ∧
    (Social.youtube ⟨none, some "tw", none, none, none⟩ : Option String)
        ≠ some "yt" := by
  exact ⟨rfl, by simp⟩

/-- C2 (amended): on an upsert for a user with an existing profile, each
top-level field merges partially — a supplied (truthy) value overwrites, an
omitted one retains the stored value, `skills` is parsed from the
comma-separated string — but the `social` subdocument is replaced wholesale
by the object built from the supplied social fields alone, so an omitted
social field is cleared rather than retained; the updated profile is
returned and persisted. -/
theorem upsert_existing_profile_merge (profiles : List Profile) (u : Nat)
    (b : ProfileBody) (p : Profile)
    (hfind : findProfile profiles u = some p)
    (hstatus : jsTruthy b.status = true) (hskills : jsTruthy b.skills = true) :
    upsert profiles u b =
      (updateFirst (fun q => q.user == u)
         (fun _ => applySet p (buildProfileFields u b)) profiles,
       .ok (applySet p (buildProfileFields u b))) ∧
    (applySet p (buildProfileFields u b)).company
        = (if jsTruthy b.company then b.company else p.company) ∧
    (applySet p (buildProfileFields u b)).website
        = (if jsTruthy b.website then b.website else p.website) ∧
    (applySet p (buildProfileFields u b)).location
        = (if jsTruthy b.location then b.location else p.location) ∧
    (applySet p (buildProfileFields u b)).bio
        = (if jsTruthy b.bio then b.bio else p.bio) ∧
    (applySet p (buildProfileFields u b)).status
        = (if jsTruthy b.status then b.status else p.status) ∧
    (applySet p (buildProfileFields u b)).githubusername
        = (if jsTruthy b.githubusername then b.githubusername
           else p.githubusername) ∧
    (∀ s, b.skills = some s → s ≠ "" →
        (applySet p (buildProfileFields u b)).skills = some (parseSkills s)) ∧
    (applySet p (buildProfileFields u b)).social = (buildProfileFields u b).social ∧
    (applySet p (buildProfileFields u b)).social.youtube
        = (if jsTruthy b.youtube then b.youtube else none) ∧
    (applySet p (buildProfileFields u b)).social.twitter
        = (if jsTruthy b.twitter then b.twitter else none) ∧
    (applySet p (buildProfileFields u b)).social.facebook
        = (if jsTruthy b.facebook then b.facebook else none) ∧
    (applySet p (buildProfileFields u b)).social.linkedin
        = (if jsTruthy b.linkedin then b.linkedin else none) ∧
    (applySet p (buildProfileFields u b)).social.instagram
        = (if jsTruthy b.instagram then b.instagram else none) ∧
    (applySet p (buildProfileFields u b)).experience = p.experience ∧
    (applySet p (buildProfileFields u b)).education = p.education := by
  refine ⟨by simp [upsert, hstatus, hskills, hfind],
    setOpt_eq b.company p.company, setOpt_eq b.website p.website,
    setOpt_eq b.location p.location, setOpt_eq b.bio p.bio,
    setOpt_eq b.status p.status, setOpt_eq b.githubusername p.githubusername,
    ?_, rfl, rfl, rfl, rfl, rfl, rfl, rfl, rfl⟩
  intro s hs hne
  simp [applySet, buildProfileFields, hs, hne]

/-- Witness for C2 (amended): a concrete upsert over an existing profile
keeps the omitted `company`, overwrites `status`, parses `skills`, and
replaces `social` wholesale. -/
theorem upsert_existing_profile_merge_witness :
    upsert
        [⟨1, some "ACME", none, none, none, some "dev", none, some ["js"],
          ⟨some "yt", none, none, none, none⟩, [], []⟩] 1
        ⟨none, none, none, none, some "boss", none, some "go, rust",
         none, none, some "tw", none, none⟩ =
      ([⟨1, some "ACME", none, none, none, some "boss", none,
         some ["go", "rust"], ⟨none, some "tw", none, none, none⟩, [], []⟩],
       .ok ⟨1, some "ACME", none, none, none, some "boss", none,
            some ["go", "rust"], ⟨none, some "tw", none, none, none⟩, [], []⟩) :=
  (upsert_existing_profile_merge
      [⟨1, some "ACME", none, none, none, some "dev", none, some ["js"],
        ⟨some "yt", none, none, none, none⟩, [], []⟩] 1
      ⟨none, none, none, none, some "boss", none, some "go, rust",
       none, none, some "tw", none, none⟩
      ⟨1, some "ACME", none, none, none, some "dev", none, some ["js"],
       ⟨some "yt", none, none, none, none⟩, [], []⟩
      (by decide) (by decide) (by decide)).1

/-- C10 counterexample: the field `youtube` is supplied with the falsy value `""` while
the stored profile has `social.youtube = "yt"`; after the upsert the stored
value is cleared, not left unchanged — a social link can be wiped via
upsert. -/
theorem upsert_falsy_social_counterexample :
    (upsert
        [⟨1, none, none, none, none, some "dev", none, some ["js"],
          ⟨some "yt", none, none, none, none⟩, [], []⟩] 1
        ⟨none, none, none, none, some "dev", none, some "js",
         some "", none, none, none, none⟩).2 =
      .ok ⟨1, none, none, none, none, some "dev", none, some ["js"],
           ⟨none, none, none, none, none⟩, [], []⟩ ∧
    (Social.youtube ⟨none, none, none, none, none⟩ : Option String)
        ≠ some "yt" := by
  exact ⟨rfl, by simp⟩

/-- C10 (amended): on an upsert over an existing profile, a top-level field
supplied with a falsy value (such as the empty string) is indeed not applied
— the stored value is unchanged — but a social field supplied with a falsy
value is cleared to absent, because the `social` object is rebuilt from only
the truthy social inputs and replaces the stored one wholesale. -/
theorem upsert_falsy_fields (profiles : List Profile) (u : Nat)
    (b : ProfileBody) (p : Profile)
    (hfind : findProfile profiles u = some p)
    (hstatus : jsTruthy b.status = true) (hskills : jsTruthy b.skills = true) :
    (upsert profiles u b).2 = .ok (applySet p (buildProfileFields u b)) ∧
    (jsTruthy b.company = false →
        (applySet p (buildProfileFields u b)).company = p.company) ∧
    (jsTruthy b.website = false →
        (applySet p (buildProfileFields u b)).website = p.website) ∧
    (jsTruthy b.location = false →
        (applySet p (buildProfileFields u b)).location = p.location) ∧
    (jsTruthy b.bio = false →
        (applySet p (buildProfileFields u b)).bio = p.bio) ∧
    (jsTruthy b.githubusername = false →
        (applySet p (buildProfileFields u b)).githubusername
          = p.githubusername) ∧
    (jsTruthy b.youtube = false →
        (applySet p (buildProfileFields u b)).social.youtube = none) ∧
    (jsTruthy b.twitter = false →
        (applySet p (buildProfileFields u b)).social.twitter = none) ∧
    (jsTruthy b.facebook = false →
        (applySet p (buildProfileFields u b)).social.facebook = none) ∧
    (jsTruthy b.linkedin = false →
        (applySet p (buildProfileFields u b)).social.linkedin = none) ∧
    (jsTruthy b.instagram = false →
        (applySet p (buildProfileFields u b)).social.instagram = none) := by
  refine ⟨by simp [upsert, hstatus, hskills, hfind], ?_, ?_, ?_, ?_, ?_,
    ?_, ?_, ?_, ?_, ?_⟩ <;>
    (intro h; simp [applySet, buildProfileFields, h])

/-- Witness for C10 (amended): with the field `youtube` supplied as `""` and `company`
omitted, the updated profile keeps the stored `company` but its
`social.youtube` is cleared. -/
theorem upsert_falsy_fields_witness :
    (applySet
        ⟨1, some "ACME", none, none, none, some "dev", none, some ["js"],
         ⟨some "yt", none, none, none, none⟩, [], []⟩
        (buildProfileFields 1
          ⟨none, none, none, none, some "dev", none, some "js",
           some "", none, none, none, none⟩)).social.youtube = none ∧
    (applySet
        ⟨1, some "ACME", none, none, none, some "dev", none, some ["js"],
         ⟨some "yt", none, none, none, none⟩, [], []⟩
        (buildProfileFields 1
          ⟨none, none, none, none, some "dev", none, some "js",
           some "", none, none, none, none⟩)).company = some "ACME" :=
  ⟨(upsert_falsy_fields
      [⟨1, some "ACME", none, none, none, some "dev", none, some ["js"],
        ⟨some "yt", none, none, none, none⟩, [], []⟩] 1
      ⟨none, none, none, none, some "dev", none, some "js",
       some "", none, none, none, none⟩
      ⟨1, some "ACME", none, none, none, some "dev", none, some ["js"],
       ⟨some "yt", none, none, none, none⟩, [], []⟩
      (by decide) (by decide) (by decide)).2.2.2.2.2.2.1 (by decide),
   (upsert_falsy_fields
      [⟨1, some "ACME", none, none, none, some "dev", none, some ["js"],
        ⟨some "yt", none, none, none, none⟩, [], []⟩] 1
      ⟨none, none, none, none, some "dev", none, some "js",
       some "", none, none, none, none⟩
      ⟨1, some "ACME", none, none, none, some "dev", none, some ["js"],
       ⟨some "yt", none, none, none, none⟩, [], []⟩
      (by decide) (by decide) (by decide)).2.1 (by decide)⟩

/-- C4 counterexample: the github route diverges from the spec's `listRepos`
in both corrected places — on a transport error it does not surface an
`UpstreamError` response as the spec model does (it only logs and then
dereferences the undefined `response`, an uncaught crash), and the query it
constructs sorts by creation date ascending (`created:asc`) where the spec's
most-recently-created request is descending. -/
theorem listRepos_divergence_counterexample :
    listRepos .transportError = .crash ∧
    listReposSpec .transportError = .upstreamError ∧
    listRepos .transportError ≠ listReposSpec .transportError ∧
    githubQuery.sort = "created:asc" ∧
    githubQuerySpec.sort = "created:desc" ∧
    githubQuery ≠ githubQuerySpec := by
  refine ⟨rfl, rfl, fun h => GithubResult.noConfusion h, rfl, rfl, fun h => ?_⟩
  have hs : githubQuery.sort = githubQuerySpec.sort := by rw [h]
  simp [githubQuery, githubQuerySpec] at hs

/-- C4 (amended): the github route requests 5 repositories of the username
with the sort parameter `created:asc` as constructed; a non-success upstream
response is answered with 404 "No github profile found"; a transport error is
logged and then crashes the callback with an uncaught error (no
`UpstreamError` response is produced); a 200 response is relayed verbatim. -/
theorem listRepos_behavior :
    githubQuery.per_page = 5 ∧
    githubQuery.sort = "created:asc" ∧
    listRepos .transportError = .crash ∧
    (∀ s b, s ≠ 200 → listRepos (.response s b) = .json 404 "No github profile found") ∧
    (∀ b, listRepos (.response 200 b) = .json 200 b) := by
  refine ⟨rfl, rfl, rfl, ?_, ?_⟩
  · intro s b hs
    simp [listRepos, hs]
  · intro b
    simp [listRepos]

/-- Witness for C4 (amended): a 404 from the upstream produces the
no-profile-found response. -/
theorem listRepos_behavior_witness :
    listRepos (.response 404 "ignored") = .json 404 "No github profile found" :=
  listRepos_behavior.2.2.2.1 404 "ignored" (by decide)

end DevConnector
